import Mathlib

/-!
# Verification of the ardrive-cli core against its specification

This file gives a shallow embedding, in Lean 4, of the core algorithms of the
ardrive-cli repository: the folder-hierarchy reconstruction (`FolderHierarchy`),
the write orchestrator entry points (`ArDrive.uploadPublicFile`,
`ArDrive.uploadPrivateFile`, `ArFSDAO.createPublicFolder`,
`ArFSDAO.createPrivateFolder`, `ArFSDAO.sendChunkedUploadWithProgress`,
`ArFSDAOAnonymous.getDriveIdForFolderId`) and the community tip oracle
(`ArDriveCommunityOracle.getCommunityARTip`,
`ArDriveCommunityOracle.selectTokenHolder`).

JavaScript objects used as string-keyed dictionaries are modelled by
association lists with unique keys kept in insertion order (`ObjMap`):
`objSet` overwrites in place (preserving the original key position, as
JS property assignment does) or appends a fresh key at the end, `objGet`
is property lookup (returning `none` for `undefined`), and `objKeys` is
`Object.keys` (insertion order).  Exceptions (`throw new Error`) are
modelled with `Except String`; `async`/`await` sequencing is irrelevant
to the verified properties and is flattened into ordinary sequencing.
Numeric values in the community oracle are JS numbers; they are embedded
as exact rationals (`ℚ`), which agrees with JS arithmetic on all the
properties proved here except where noted in comments.
-/

/-- A JavaScript object used as a string-keyed dictionary:
an association list whose keys are unique and kept in insertion order. -/
abbrev ObjMap (α : Type) : Type := List (String × α)

namespace ObjMap

/-- The empty object `{}`. -/
def empty {α : Type} : ObjMap α := []

/-- Property read `m[k]`: the value at key `k`, or `none` for `undefined`. -/
def objGet {α : Type} (m : ObjMap α) (k : String) : Option α :=
  (List.find? (fun p => p.1 = k) m).map Prod.snd

/-- Property write `m[k] = v`: overwrite in place if the key exists
(JS keeps the key at its original position), else append the key. -/
def objSet {α : Type} (m : ObjMap α) (k : String) (v : α) : ObjMap α :=
  if (List.map Prod.fst m).contains k then
    List.map (fun p => if p.1 = k then (k, v) else p) m
  else
    m ++ [(k, v)]

/-- `Object.keys(m)`: the keys in insertion order. -/
def objKeys {α : Type} (m : ObjMap α) : List String :=
  List.map Prod.fst m

/-- The values of the object, in key order. -/
def objValues {α : Type} (m : ObjMap α) : List α :=
  List.map Prod.snd m

end ObjMap

open ObjMap

/- ------------------------------------------------------------------
## Community Tip Oracle (src/unnamed/part_002, `ArDriveCommunityOracle`)
------------------------------------------------------------------ -/

namespace ArDriveCommunityOracle

/-- `export const minArDriveCommunityARTip = 0.000_010_000_000;` -/
def minArDriveCommunityARTip : ℚ := 1 / 100000

/-- `getCommunityARTip(arCost)`: multiply the cost by the contract
tip-rate percentage (`communityTipValue / 100`) and floor the result at
the fixed minimum tip via `Math.max`.  The live contract read
(`getTipSettingFromContractSettings`) is an external collaborator and is
passed in as the `communityTipValue` argument. -/
def getCommunityARTip (arCost : ℚ) (communityTipValue : ℚ) : ℚ :=
  max (arCost * (communityTipValue / 100)) minArDriveCommunityARTip

/-- One entry of a vault list: `{ balance: number; start: number; end: number }`. -/
structure VaultEntry where
  balance : ℚ
  startAt : ℚ
  endAt : ℚ
deriving Repr, DecidableEq

/-- Modelled from the spec: `weightedRandom` lives in the external
`ardrive-core-js` package (not part of this repository); the spec says the
oracle "draws one address via weighted-random sampling".  Given the weighted
table and a random draw `r`, it walks the table accumulating weights and
returns the first address whose cumulative weight reaches `r`; if the
accumulated total never reaches `r` (in particular on an empty table) it
returns `undefined`. -/
def weightedRandom (dict : ObjMap ℚ) (r : ℚ) : Option String :=
  go 0 dict
where
  /-- Walk the table with a running cumulative sum. -/
  go (acc : ℚ) : List (String × ℚ) → Option String
    | [] => none
    | (addr, w) :: rest => if r ≤ acc + w then some addr else go (acc + w) rest

/-- One iteration of the `for (const addr of Object.keys(vault))` loop of
`selectTokenHolder`: an address with an empty vault list is skipped
(`continue`), otherwise its summed vault balance is added to the running
total and into the balances table (`balances[addr] += vaultBalance`,
creating the key when absent). -/
def foldVaultStep (acc : ℚ × ObjMap ℚ) (pr : String × List VaultEntry) :
    ℚ × ObjMap ℚ :=
  if pr.2.isEmpty then acc
  else
    let vaultBalance := (List.map VaultEntry.balance pr.2).sum
    let total := acc.1 + vaultBalance
    match objGet acc.2 pr.1 with
    | some b => (total, objSet acc.2 pr.1 (b + vaultBalance))
    | none => (total, objSet acc.2 pr.1 vaultBalance)

/-- The first half of `selectTokenHolder`: starting from
`total = Σ balances`, fold every vault address through `foldVaultStep`.
Returns the final `(total, balances)` pair. -/
def foldVaults (balances : ObjMap ℚ) (vault : ObjMap (List VaultEntry)) :
    ℚ × ObjMap ℚ :=
  List.foldl foldVaultStep ((objValues balances).sum, balances) vault

/-- `selectTokenHolder()`: fold vault balances into the balance table,
normalize every entry by the grand total to build the weighted table, and
draw one address with `weightedRandom`; `undefined` becomes the selection
error.  The contract state (`balances`, `vault`) is read from the external
contract oracle and is passed in; the random draw is the argument `r`.
(JS computes `balances[addr] / total` with floating division; `ℚ` division
is exact, and `q / 0 = 0` in Lean where JS would produce `NaN` — the
theorems below therefore assume a positive total.) -/
def selectTokenHolder (balances : ObjMap ℚ) (vault : ObjMap (List VaultEntry))
    (r : ℚ) : Except String String :=
  let folded := foldVaults balances vault
  let weighted : ObjMap ℚ := List.map (fun pr => (pr.1, pr.2 / folded.1)) folded.2
  match weightedRandom weighted r with
  | some randomHolder => Except.ok randomHolder
  | none =>
    Except.error "Token holder target could not be determined for community tip distribution.."

end ArDriveCommunityOracle

/- ------------------------------------------------------------------
## GQL edges and `getDriveIdForFolderId`
   (src/unnamed/part_000, `ArFSDAOAnonymous`)
------------------------------------------------------------------ -/

/-- A GraphQL tag `{ name, value }`. -/
structure GQLTag where
  name : String
  value : String
deriving Repr, DecidableEq

/-- The node of a GraphQL edge; only the tags are consulted here. -/
structure GQLNode where
  tags : List GQLTag
deriving Repr, DecidableEq

/-- A GraphQL edge. -/
structure GQLEdge where
  node : GQLNode
deriving Repr, DecidableEq

namespace ArFSDAOAnonymous

/-- `getDriveIdForFolderId(folderId)`: the gateway response's edge list is
passed in (the query itself is external I/O).  Zero edges signal not-found;
otherwise only `edges[0]` is consulted: its `Drive-Id` tag's value is
returned, and a missing `Drive-Id` tag on that first edge signals an error. -/
def getDriveIdForFolderId (folderId : String) (edges : List GQLEdge) :
    Except String String :=
  match edges with
  | [] => Except.error ("Folder with Folder ID " ++ folderId ++ " not found!")
  | e :: _ =>
    match List.find? (fun t => t.name = "Drive-Id") e.node.tags with
    | some driveIdTag => Except.ok driveIdTag.value
    | none =>
      Except.error
        ("No Drive-Id tag found for meta data transaction of Folder-Id: " ++ folderId)

end ArFSDAOAnonymous

/- ------------------------------------------------------------------
## Chunked upload (src/unnamed/part_000, `ArFSDAO.sendChunkedUploadWithProgress`)
------------------------------------------------------------------ -/

/-- The observable outcome of one run of `sendChunkedUploadWithProgress`:
how many times `uploadDataChunk` was invoked, the progress reports printed
(the `uploadedChunks` counter at each report), the final `uploadedChunks`
counter, and whether the loop exited through the `break` on a `null` chunk. -/
structure ChunkedUploadRun where
  chunkCalls : Nat
  progressLog : List Nat
  finalUploaded : Nat
  brokeOnNullChunk : Bool
deriving Repr, DecidableEq

namespace ArFSDAO

/-- The loop of `sendChunkedUploadWithProgress`: while the uploader is not
complete (`uploadedChunks < totalChunks`), call `uploadDataChunk`; a `null`
result breaks out of the loop, otherwise a progress line is logged and the
loop repeats.  The transport is abstracted as the oracle `chunkOk`: the
result of the `i`-th `uploadDataChunk` call (`true` = a chunk was uploaded,
`false` = `null`). -/
def chunkedUploadLoop (totalChunks : Nat) (chunkOk : Nat → Bool)
    (uploaded : Nat) (callIdx : Nat) : ChunkedUploadRun :=
  if _h : uploaded < totalChunks then
    if chunkOk callIdx then
      let rest := chunkedUploadLoop totalChunks chunkOk (uploaded + 1) (callIdx + 1)
      { chunkCalls := rest.chunkCalls + 1
        progressLog := (uploaded + 1) :: rest.progressLog
        finalUploaded := rest.finalUploaded
        brokeOnNullChunk := rest.brokeOnNullChunk }
    else
      { chunkCalls := 1, progressLog := [], finalUploaded := uploaded,
        brokeOnNullChunk := true }
  else
    { chunkCalls := 0, progressLog := [], finalUploaded := uploaded,
      brokeOnNullChunk := false }
termination_by totalChunks - uploaded

/-- `sendChunkedUploadWithProgress(trx)`: run the chunked upload loop for a
transaction whose uploader starts at `uploadedChunks = uploaded` out of
`totalChunks`, and return what the caller sees.  The source function returns
`Promise<void>` and never throws on its own: whatever way the loop ends, the
caller receives a normal completion, modelled as `Except.ok ()`, paired with
the run's observable trace. -/
def sendChunkedUploadWithProgress (totalChunks uploaded : Nat)
    (chunkOk : Nat → Bool) : ChunkedUploadRun × Except String Unit :=
  (chunkedUploadLoop totalChunks chunkOk uploaded 0, Except.ok ())

end ArFSDAO

/- ------------------------------------------------------------------
## Upload orchestration (src/unnamed/part_000, `ArDrive`)
------------------------------------------------------------------ -/

/-- A prepared (signed but not yet submitted) Arweave transaction, with the
fields the orchestrator reads: `id`, `reward` (the fee, in winston),
`target` and `quantity` (used for the community tip). -/
structure PreparedTrx where
  id : String
  reward : Nat
  target : String
  quantity : Nat
deriving Repr, DecidableEq

/-- One entry of `ArFSResult.created`. -/
structure ArFSEntityData where
  type : String
  metadataTxId : String
  dataTxId : Option String
  entityId : Option String
  key : Option String
deriving Repr, DecidableEq

/-- One entry of `ArFSResult.tips`. -/
structure ArFSTipData where
  txId : String
  recipient : String
  winston : Nat
deriving Repr, DecidableEq

/-- The result shape returned to callers of create/upload operations. -/
structure ArFSResult where
  created : List ArFSEntityData
  tips : List ArFSTipData
  fees : ObjMap Nat
deriving Repr, DecidableEq

namespace ArDrive

/-- Modelled from the spec: `WalletDAO.walletHasBalance` lives in
`wallet_new.ts`, which is not among the provided sources; per the spec a
validation error is signalled on "insufficient balance for an estimated
total fee", so the predicate holds exactly when the wallet balance covers
the requested total winston price. -/
def walletHasBalance (walletBalance : Nat) (winstonPrice : Nat) : Bool :=
  winstonPrice ≤ walletBalance

/-- `ArDrive.uploadPublicFile` from the balance check onward.  The earlier
steps (drive lookup, `preparePublicFileTransactions`, the community oracle
and `prepareCommunityTipTrx`) only *prepare* the three transactions; they
are abstracted as the already-prepared `dataTrx`, `metaDataTrx` and
`commTipTrx` arguments.  The first component of the result lists the ids of
the transactions actually *submitted* (the `Promise.all` of two
`uploadByChunk` calls and one `submitTransaction`), in source order; the
second is the value or error the caller sees. -/
def uploadPublicFile (walletBalance : Nat)
    (dataTrx metaDataTrx commTipTrx : PreparedTrx) (fileId : String) :
    List String × Except String ArFSResult :=
  let totalWinstonPrice := dataTrx.reward + commTipTrx.reward + metaDataTrx.reward
  if ¬ walletHasBalance walletBalance totalWinstonPrice then
    ([], Except.error "Not enough AR for file upload..")
  else
    ([dataTrx.id, metaDataTrx.id, commTipTrx.id],
      Except.ok
        { created := [{ type := "file", metadataTxId := metaDataTrx.id,
                        dataTxId := some dataTrx.id, entityId := some fileId,
                        key := none }]
          tips := [{ txId := commTipTrx.id, recipient := commTipTrx.target,
                     winston := commTipTrx.quantity }]
          fees := objSet (objSet ObjMap.empty metaDataTrx.id metaDataTrx.reward)
                    dataTrx.id dataTrx.reward })

/-- `ArDrive.uploadPrivateFile` from the balance check onward, abstracted
exactly as `uploadPublicFile` above.  Note the `created` entry: the source
hard-codes `key: ''` (with a `TODO: Implement returning the file key`
comment), so the caller receives the empty string, not the derived file
key. -/
def uploadPrivateFile (walletBalance : Nat)
    (dataTrx metaDataTrx commTipTrx : PreparedTrx) (fileId : String) :
    List String × Except String ArFSResult :=
  let totalWinstonPrice := dataTrx.reward + commTipTrx.reward + metaDataTrx.reward
  if ¬ walletHasBalance walletBalance totalWinstonPrice then
    ([], Except.error "Not enough AR for file upload..")
  else
    ([dataTrx.id, metaDataTrx.id, commTipTrx.id],
      Except.ok
        { created := [{ type := "file", metadataTxId := metaDataTrx.id,
                        dataTxId := some dataTrx.id, entityId := some fileId,
                        key := some "" }]
          tips := [{ txId := commTipTrx.id, recipient := commTipTrx.target,
                     winston := commTipTrx.quantity }]
          fees := objSet (objSet (objSet ObjMap.empty metaDataTrx.id metaDataTrx.reward)
                    dataTrx.id dataTrx.reward) commTipTrx.id commTipTrx.reward })

end ArDrive

/- ------------------------------------------------------------------
## Folder creation (src/unnamed/part_000, `ArFSDAO.createPublicFolder` /
   `ArFSDAO.createPrivateFolder`)
------------------------------------------------------------------ -/

/-- The slice of a drive entity consulted by `createPublicFolder` /
`createPrivateFolder`: its (possibly absent) root folder id. -/
structure DriveRecord where
  rootFolderId : Option String
deriving Repr, DecidableEq

/-- The external reads `createPublicFolder` / `createPrivateFolder` perform:
`getDriveIdForFolderId` (drive id recorded on the ledger for a folder id;
`none` models the not-found throw) and `getPublicDrive`/`getPrivateDrive`
(`none` models the not-found throw). -/
structure FolderDaoEnv where
  driveIdForFolderId : String → Option String
  driveForId : String → Option DriveRecord
deriving Inhabited

/-- The folder metadata prototype
(`ArFSPublicFolderMetaDataPrototype`/`ArFSPrivateFolderMetaDataPrototype`):
the payload plus the identity fields that become the folder transaction's
tags.  `parentFolderId = none` means the `Parent-Folder-Id` tag is absent
(a root folder). -/
structure FolderMetaPrototype where
  folderData : String
  unixTime : Nat
  driveId : String
  folderId : String
  parentFolderId : Option String
deriving Repr, DecidableEq

/-- `ArFSCreateFolderResult`, with the produced folder transaction kept as
its prototype so theorems can inspect the recorded parent. -/
structure ArFSCreateFolderResult where
  folderTrx : FolderMetaPrototype
  folderId : String
deriving Repr, DecidableEq

namespace ArFSDAO

/-- `ArFSDAO.createPublicFolder`.  With a parent folder id supplied (and
`syncParentFolderId` left at its default `true`), the drive id recorded on
the ledger for that parent is fetched and compared with the stated drive
id; a mismatch throws before any prototype or transaction is built.  With
no parent supplied (and sync on), the drive is fetched and, when it has a
root folder, the new folder is silently reparented under it.  `newFolderId`
stands for the fresh `uuidv4()` and `unixTime` for `Date.now()`; the
chunked upload of the folder transaction has no bearing on the returned
value and is elided. -/
def createPublicFolder (env : FolderDaoEnv) (folderData : String)
    (driveId : String) (parentFolderId : Option String)
    (syncParentFolderId : Bool) (newFolderId : String) (unixTime : Nat) :
    Except String ArFSCreateFolderResult :=
  -- The `if / else if` prologue either throws or settles the effective
  -- parent folder id (`parentFolderId` is reassigned to the drive's root
  -- folder id in the reparenting branch).
  let prologue : Except String (Option String) :=
    if parentFolderId.isSome && syncParentFolderId then
      match env.driveIdForFolderId (parentFolderId.getD "") with
      | none =>
        Except.error ("Folder with Folder ID " ++ parentFolderId.getD ""
          ++ " not found!")
      | some actualDriveId =>
        if actualDriveId ≠ driveId then
          Except.error ("Drive id: " ++ driveId
            ++ " does not match actual drive id: " ++ actualDriveId
            ++ " for parent folder id")
        else Except.ok parentFolderId
    else if syncParentFolderId then
      match env.driveForId driveId with
      | none =>
        Except.error ("Public drive with Drive ID " ++ driveId ++ " not found!")
      | some drive =>
        match drive.rootFolderId with
        | some rootFolderId => Except.ok (some rootFolderId)
        | none => Except.ok parentFolderId
    else Except.ok parentFolderId
  match prologue with
  | Except.error e => Except.error e
  | Except.ok parent =>
    Except.ok
      { folderTrx :=
          { folderData := folderData, unixTime := unixTime, driveId := driveId,
            folderId := newFolderId, parentFolderId := parent }
        folderId := newFolderId }

/-- `ArFSDAO.createPrivateFolder`: the same control flow as
`createPublicFolder`, with the drive fetched via `getPrivateDrive` (the
drive key only affects decryption, which is irrelevant to the consistency
check) and the folder payload encrypted.  The returned drive key is elided;
the identity fields are as in the public case. -/
def createPrivateFolder (env : FolderDaoEnv) (folderData : String)
    (driveId : String) (parentFolderId : Option String)
    (syncParentFolderId : Bool) (newFolderId : String) (unixTime : Nat) :
    Except String ArFSCreateFolderResult :=
  let prologue : Except String (Option String) :=
    if parentFolderId.isSome && syncParentFolderId then
      match env.driveIdForFolderId (parentFolderId.getD "") with
      | none =>
        Except.error ("Folder with Folder ID " ++ parentFolderId.getD ""
          ++ " not found!")
      | some actualDriveId =>
        if actualDriveId ≠ driveId then
          Except.error ("Drive id: " ++ driveId
            ++ " does not match actual drive id: " ++ actualDriveId
            ++ " for parent folder id")
        else Except.ok parentFolderId
    else if syncParentFolderId then
      match env.driveForId driveId with
      | none =>
        Except.error ("Private drive with Drive ID " ++ driveId ++ " not found!")
      | some drive =>
        match drive.rootFolderId with
        | some rootFolderId => Except.ok (some rootFolderId)
        | none => Except.ok parentFolderId
    else Except.ok parentFolderId
  match prologue with
  | Except.error e => Except.error e
  | Except.ok parent =>
    Except.ok
      { folderTrx :=
          { folderData := folderData, unixTime := unixTime, driveId := driveId,
            folderId := newFolderId, parentFolderId := parent }
        folderId := newFolderId }

end ArFSDAO

/- ------------------------------------------------------------------
## Folder hierarchy (src/unnamed/part_000, `FolderTreeNode` / `FolderHierarchy`)
------------------------------------------------------------------ -/

/-- The slice of `ArFSFileOrFolderEntity` the hierarchy code reads:
identity, parent linkage, display name and source transaction id. -/
structure ArFSFileOrFolderEntity where
  entityId : String
  parentFolderId : String
  name : String
  txId : String
deriving Repr, DecidableEq

/-- `FolderTreeNode { folderId, parent?, children }`.  In the source,
`parent` is a readonly object reference and `children` an array of node
references; every node object is registered in the node map under its
`folderId` exactly once (node creation is guarded by a membership check),
so a reference is faithfully represented by the referenced node's
`folderId` and recovered by a map lookup. -/
structure FolderTreeNode where
  folderId : String
  parentId : Option String
  children : List String
deriving Repr, DecidableEq

/-- `FolderHierarchy`: the entity map and the node map, both keyed by
folder id.  The entity map's values are `Option`-valued because
`subTreeOf` copies `folderIdToEntityMap[node.folderId]` verbatim, which in
JS stores `undefined` under the key when the entity is absent (the key
still shows up in `Object.keys`). -/
structure FolderHierarchy where
  folderIdToEntityMap : ObjMap (Option ArFSFileOrFolderEntity)
  folderIdToNodeMap : ObjMap FolderTreeNode
deriving Repr, DecidableEq

namespace FolderHierarchy

/-- `FolderHierarchy.setupNodesWithEntity`, with an explicit recursion
budget: the source recursion carries no visited set, so it is embedded
with fuel, and `none` means the budget was exhausted — the source call
would still be recursing (`fuel` bounds the depth of the "resolve the
parent first" recursion, which any terminating source run satisfies for a
large enough budget).  Otherwise: an entity already owning a node is left
alone; a missing parent node is first built recursively when the parent's
entity is known; then the entity's node is attached under its parent node
when one exists, and becomes a local root when none does. -/
def setupNodesWithEntity (fuel : Nat) (entity : ArFSFileOrFolderEntity)
    (folderIdToEntityMap : ObjMap (Option ArFSFileOrFolderEntity))
    (folderIdToNodeMap : ObjMap FolderTreeNode) :
    Option (ObjMap FolderTreeNode) :=
  match fuel with
  | 0 => none
  | fuel + 1 =>
    let folderIdKeyIsPresent := (objKeys folderIdToNodeMap).contains entity.entityId
    let parentFolderIdKeyIsPresent :=
      (objKeys folderIdToNodeMap).contains entity.parentFolderId
    if folderIdKeyIsPresent then
      some folderIdToNodeMap
    else
      let afterParentSetup : Option (ObjMap FolderTreeNode) :=
        if ¬ parentFolderIdKeyIsPresent then
          match (objGet folderIdToEntityMap entity.parentFolderId).join with
          | some parentFolderEntity =>
            setupNodesWithEntity fuel parentFolderEntity folderIdToEntityMap
              folderIdToNodeMap
          | none => some folderIdToNodeMap
        else some folderIdToNodeMap
      match afterParentSetup with
      | none => none
      | some nodeMap1 =>
        match objGet nodeMap1 entity.parentFolderId with
        | some parent =>
          let node : FolderTreeNode :=
            { folderId := entity.entityId, parentId := some parent.folderId,
              children := [] }
          let nodeMap2 := objSet nodeMap1 parent.folderId
            { parent with children := parent.children ++ [entity.entityId] }
          some (objSet nodeMap2 entity.entityId node)
        | none =>
          -- this one is supposed to be the new root
          some (objSet nodeMap1 entity.entityId
            { folderId := entity.entityId, parentId := none, children := [] })

/-- The `for (const entity of entities)` loop of `newFromEntities`,
threading the node map through `setupNodesWithEntity` and propagating
fuel exhaustion. -/
def setupAllNodes (fuel : Nat) (entities : List ArFSFileOrFolderEntity)
    (folderIdToEntityMap : ObjMap (Option ArFSFileOrFolderEntity))
    (folderIdToNodeMap : ObjMap FolderTreeNode) :
    Option (ObjMap FolderTreeNode) :=
  match entities with
  | [] => some folderIdToNodeMap
  | entity :: rest =>
    match setupNodesWithEntity fuel entity folderIdToEntityMap folderIdToNodeMap with
    | some nodeMap1 => setupAllNodes fuel rest folderIdToEntityMap nodeMap1
    | none => none

/-- `FolderHierarchy.newFromEntities(entities)`: build the entity map by
reduction (later duplicates overwrite in place), then run
`setupNodesWithEntity` for every entity.  `none` propagates fuel
exhaustion of the unguarded recursion. -/
def newFromEntities (fuel : Nat) (entities : List ArFSFileOrFolderEntity) :
    Option FolderHierarchy :=
  let folderIdToEntityMap :=
    List.foldl (fun acc e => objSet acc e.entityId (some e)) ObjMap.empty entities
  match setupAllNodes fuel entities folderIdToEntityMap ObjMap.empty with
  | some folderIdToNodeMap => some ⟨folderIdToEntityMap, folderIdToNodeMap⟩
  | none => none

/-- `allFolderIDs()`: `Object.keys(this.folderIdToEntityMap)`. -/
def allFolderIDs (h : FolderHierarchy) : List String :=
  objKeys h.folderIdToEntityMap

/-- `nodeAndChildrenOf(node)`: the node itself followed by its direct
children — the source pushes `node.children` and does not recurse.
Child references are resolved through the node map of `h` (see
`FolderTreeNode`). -/
def nodeAndChildrenOf (h : FolderHierarchy) (node : FolderTreeNode) :
    List FolderTreeNode :=
  node :: List.filterMap (fun cid => objGet h.folderIdToNodeMap cid) node.children

/-- `subTreeOf(folderId)`: re-key the nodes collected by
`nodeAndChildrenOf` into fresh entity and node maps.  `none` models the
TypeError the source raises when `folderId` has no node. -/
def subTreeOf (h : FolderHierarchy) (folderId : String) : Option FolderHierarchy :=
  (objGet h.folderIdToNodeMap folderId).map (fun newRootNode =>
    let subTreeNodes := nodeAndChildrenOf h newRootNode
    let entitiesMapping := List.foldl
      (fun acc n => objSet acc n.folderId ((objGet h.folderIdToEntityMap n.folderId).join))
      ObjMap.empty subTreeNodes
    let nodesMapping := List.foldl (fun acc n => objSet acc n.folderId n)
      ObjMap.empty subTreeNodes
    ⟨entitiesMapping, nodesMapping⟩)

/-- The `while (tmpNode.parent && this.folderIdToNodeMap[tmpNode.parent.folderId])`
loop of the `rootNode` getter, fueled (an arbitrary node map could make the
source loop forever; on every hierarchy reachable from `newFromEntities`
parent links point strictly backwards in creation order, so a budget of
`|nodeMap| + 1` always suffices). -/
def climbToRoot (fuel : Nat) (nodeMap : ObjMap FolderTreeNode)
    (tmpNode : FolderTreeNode) : Option FolderTreeNode :=
  match fuel with
  | 0 => none
  | fuel + 1 =>
    match tmpNode.parentId with
    | none => some tmpNode
    | some pid =>
      match objGet nodeMap pid with
      | none => some tmpNode
      | some parentNode => climbToRoot fuel nodeMap parentNode

/-- The `rootNode` getter: start from the node of the first entity-map key
and climb while the parent is registered.  `none` models the TypeError the
source raises on an empty hierarchy or a key with no node (and fuel
exhaustion, see `climbToRoot`). -/
def rootNode? (h : FolderHierarchy) : Option FolderTreeNode :=
  match objKeys h.folderIdToEntityMap with
  | [] => none
  | someFolderId :: _ =>
    match objGet h.folderIdToNodeMap someFolderId with
    | none => none
    | some tmpNode =>
      climbToRoot (h.folderIdToNodeMap.length + 1) h.folderIdToNodeMap tmpNode

/-- The shared ancestor walk of `pathToFolderId` / `entityPathToFolderId` /
`txPathToFolderId` (their loop bodies are textually identical in the
source): collect the node and its ancestors, target first, stopping at a
parentless node or at the detected root.  The source steps through the
`parent` object reference; the lookup-based step agrees with it on every
hierarchy whose registered nodes only reference registered nodes, which
holds for all hierarchies reachable from `newFromEntities` (`none` on a
dangling reference or fuel exhaustion models the source diverging from
that reachable set). -/
def walkUp (fuel : Nat) (nodeMap : ObjMap FolderTreeNode) (rootFolderId : String)
    (folderNode : FolderTreeNode) : Option (List FolderTreeNode) :=
  match fuel with
  | 0 => none
  | fuel + 1 =>
    match folderNode.parentId with
    | none => some [folderNode]
    | some pid =>
      if folderNode.folderId = rootFolderId then some [folderNode]
      else
        match objGet nodeMap pid with
        | none => none
        | some parentNode =>
          (walkUp fuel nodeMap rootFolderId parentNode).map (folderNode :: ·)

/-- JavaScript `array.join('/')`: the elements separated by single `/`
characters (empty string on the empty array). -/
def joinSlash : List String → String
  | [] => ""
  | [part] => part
  | part :: rest => part ++ "/" ++ joinSlash rest

/-- The `.map(...)` over the collected ancestor nodes: render every node,
propagating the first throw (the source's per-node entity lookup can raise
a TypeError inside the map callback). -/
def renderAll (render : FolderTreeNode → Except String String) :
    List FolderTreeNode → Except String (List String)
  | [] => Except.ok []
  | n :: rest =>
    match render n with
    | Except.error e => Except.error e
    | Except.ok s =>
      match renderAll render rest with
      | Except.error e => Except.error e
      | Except.ok ss => Except.ok (s :: ss)

/-- The common shape of the three path methods: reject sub-tree hierarchies
(`rootNode.parent` present), resolve the `'root folder'` sentinel to `/`,
walk to the root, reverse to oldest-first, render each node with `render`
and join with `/`, wrapped in a leading and trailing slash. -/
def pathRender (h : FolderHierarchy) (folderId : String)
    (render : FolderTreeNode → Except String String) : Except String String :=
  match rootNode? h with
  | none => Except.error "TypeError: rootNode"
  | some root =>
    if root.parentId.isSome then Except.error "Cant compute paths from sub-tree"
    else if folderId = "root folder" then Except.ok "/"
    else
      match objGet h.folderIdToNodeMap folderId with
      | none => Except.error "TypeError: no node for folder id"
      | some folderNode =>
        match walkUp (h.folderIdToNodeMap.length + 1) h.folderIdToNodeMap
            root.folderId folderNode with
        | none => Except.error "TypeError: walk left the node map"
        | some nodesInPathToFolder =>
          match renderAll render nodesInPathToFolder.reverse with
          | Except.error e => Except.error e
          | Except.ok parts => Except.ok ("/" ++ joinSlash parts ++ "/")

/-- `pathToFolderId`: render each ancestor by its entity's `name`
(a missing entity raises a TypeError in the source). -/
def pathToFolderId (h : FolderHierarchy) (folderId : String) : Except String String :=
  pathRender h folderId (fun n =>
    match (objGet h.folderIdToEntityMap n.folderId).join with
    | some e => Except.ok e.name
    | none => Except.error "TypeError: no entity for folder id")

/-- `entityPathToFolderId`: render each ancestor by its `folderId`. -/
def entityPathToFolderId (h : FolderHierarchy) (folderId : String) :
    Except String String :=
  pathRender h folderId (fun n => Except.ok n.folderId)

/-- `txPathToFolderId`: render each ancestor by its entity's `txId`. -/
def txPathToFolderId (h : FolderHierarchy) (folderId : String) :
    Except String String :=
  pathRender h folderId (fun n =>
    match (objGet h.folderIdToEntityMap n.folderId).join with
    | some e => Except.ok e.txId
    | none => Except.error "TypeError: no entity for folder id")

end FolderHierarchy

/-- `ArFSPublicFileOrFolderWithPaths` (the private variant computes its
paths identically): the entity decorated with the three parallel path
strings. -/
structure ArFSPublicFileOrFolderWithPaths extends ArFSFileOrFolderEntity where
  path : String
  txIdPath : String
  entityIdPath : String
deriving Repr, DecidableEq

namespace ArFSPublicFileOrFolderWithPaths

/-- The `ArFSPublicFileOrFolderWithPaths` constructor: each path is the
hierarchy path of the entity's parent followed by the entity's own
`name` / `txId` / `entityId`; a throw inside any of the three path
computations propagates out of the constructor. -/
def ofEntity (entity : ArFSFileOrFolderEntity) (hierarchy : FolderHierarchy) :
    Except String ArFSPublicFileOrFolderWithPaths := do
  let p ← FolderHierarchy.pathToFolderId hierarchy entity.parentFolderId
  let tp ← FolderHierarchy.txPathToFolderId hierarchy entity.parentFolderId
  let ep ← FolderHierarchy.entityPathToFolderId hierarchy entity.parentFolderId
  return { toArFSFileOrFolderEntity := entity
           path := p ++ entity.name
           txIdPath := tp ++ entity.txId
           entityIdPath := ep ++ entity.entityId }

end ArFSPublicFileOrFolderWithPaths

/-- The number of `/`-separated segments of a string: one more than the
number of `/` characters (`s.splitOn "/"` always has exactly this length). -/
def segmentCount (s : String) : Nat :=
  s.toList.count '/' + 1

/- ------------------------------------------------------------------
## Concrete instances used by counterexamples and witnesses
------------------------------------------------------------------ -/

/-- A folder entity whose stated parent is the other one: `folder-a`'s
parent is `folder-b`.  Together with `cycleEntityB` it realizes a
malformed ledger in which two folders cite each other as parents. -/
def cycleEntityA : ArFSFileOrFolderEntity :=
  { entityId := "folder-a", parentFolderId := "folder-b", name := "a", txId := "tx-a" }

/-- The second half of the two-folder parent cycle: `folder-b`'s parent is
`folder-a`. -/
def cycleEntityB : ArFSFileOrFolderEntity :=
  { entityId := "folder-b", parentFolderId := "folder-a", name := "b", txId := "tx-b" }

/-- The entity map `newFromEntities` builds for
`[cycleEntityA, cycleEntityB]`. -/
def cycleEntityMap : ObjMap (Option ArFSFileOrFolderEntity) :=
  [("folder-a", some cycleEntityA), ("folder-b", some cycleEntityB)]

/-- A three-level chain for the subtree claims: the root folder. -/
def chainRoot : ArFSFileOrFolderEntity :=
  { entityId := "folder-r", parentFolderId := "root folder", name := "r", txId := "tx-r" }

/-- Middle of the three-level chain: child of `chainRoot`. -/
def chainMid : ArFSFileOrFolderEntity :=
  { entityId := "folder-m", parentFolderId := "folder-r", name := "m", txId := "tx-m" }

/-- Leaf of the three-level chain: child of `chainMid`, grandchild of
`chainRoot`. -/
def chainLeaf : ArFSFileOrFolderEntity :=
  { entityId := "folder-l", parentFolderId := "folder-m", name := "l", txId := "tx-l" }

/-- The node the chain hierarchy builds for `chainMid`. -/
def chainMidNode : FolderTreeNode :=
  { folderId := "folder-m", parentId := some "folder-r", children := ["folder-l"] }

/-- The hierarchy `newFromEntities` builds from
`[chainRoot, chainMid, chainLeaf]` (with any sufficient recursion
budget), written out. -/
def chainHierarchy : FolderHierarchy :=
  { folderIdToEntityMap :=
      [("folder-r", some chainRoot), ("folder-m", some chainMid),
        ("folder-l", some chainLeaf)]
    folderIdToNodeMap :=
      [("folder-r", { folderId := "folder-r", parentId := none, children := ["folder-m"] }),
        ("folder-m", chainMidNode),
        ("folder-l", { folderId := "folder-l", parentId := some "folder-m", children := [] })] }

/-- A root folder whose *name* contains a `/` character. -/
def slashRoot : ArFSFileOrFolderEntity :=
  { entityId := "folder-s", parentFolderId := "root folder", name := "x/y", txId := "tx-s" }

/-- A well-behaved child of `slashRoot`. -/
def slashChild : ArFSFileOrFolderEntity :=
  { entityId := "folder-c", parentFolderId := "folder-s", name := "c", txId := "tx-c" }

/-- A string contains no `/` character. -/
def slashFree (s : String) : Prop := '/' ∉ s.toList

instance (s : String) : Decidable (slashFree s) := by
  unfold slashFree; infer_instance

/- ------------------------------------------------------------------
## Theorems
------------------------------------------------------------------ -/

/-- **C8**: the community tip is the data cost times the contract tip-rate
percentage, floored at `minArDriveCommunityARTip`: a cost of `0` yields
exactly the minimum tip, every tip is at least the (positive) minimum and
hence never zero, and whenever the percentage-scaled cost reaches the
minimum the tip equals it exactly. -/
theorem getCommunityARTip_floors_at_minimum :
    (∀ v : ℚ, ArDriveCommunityOracle.getCommunityARTip 0 v =
      ArDriveCommunityOracle.minArDriveCommunityARTip) ∧
    (∀ c v : ℚ, 0 < ArDriveCommunityOracle.getCommunityARTip c v) ∧
    (∀ c v : ℚ, ArDriveCommunityOracle.minArDriveCommunityARTip ≤
      ArDriveCommunityOracle.getCommunityARTip c v) ∧
    (∀ c v : ℚ, ArDriveCommunityOracle.minArDriveCommunityARTip ≤ c * (v / 100) →
      ArDriveCommunityOracle.getCommunityARTip c v = c * (v / 100)) := by
  refine ⟨?_, ?_, ?_, ?_⟩
  · intro v
    simp [ArDriveCommunityOracle.getCommunityARTip,
      ArDriveCommunityOracle.minArDriveCommunityARTip]
  · intro c v
    have hmin : (0 : ℚ) < ArDriveCommunityOracle.minArDriveCommunityARTip := by
      norm_num [ArDriveCommunityOracle.minArDriveCommunityARTip]
    exact lt_of_lt_of_le hmin (le_max_right _ _)
  · intro c v
    exact le_max_right _ _
  · intro c v h
    exact max_eq_left h

/-- Witness for `getCommunityARTip_floors_at_minimum`: at cost `1` and
tip rate `100`%, the scaled cost `1` dominates the minimum and the tip is
exactly `1`. -/
theorem getCommunityARTip_floors_at_minimum_witness :
    ArDriveCommunityOracle.getCommunityARTip 1 100 = 1 * (100 / 100) :=
  getCommunityARTip_floors_at_minimum.2.2.2 1 100
    (by norm_num [ArDriveCommunityOracle.minArDriveCommunityARTip])

/-- **C10**: `getDriveIdForFolderId` signals not-found on zero edges;
otherwise its result depends only on the first edge (whatever edges
follow), returning the first edge's `Drive-Id` tag value when present and
signalling a missing-tag error when absent. -/
theorem getDriveIdForFolderId_first_edge_only :
    (∀ folderId : String, ArFSDAOAnonymous.getDriveIdForFolderId folderId [] =
      Except.error ("Folder with Folder ID " ++ folderId ++ " not found!")) ∧
    (∀ (folderId : String) (e : GQLEdge) (rest rest' : List GQLEdge),
      ArFSDAOAnonymous.getDriveIdForFolderId folderId (e :: rest) =
      ArFSDAOAnonymous.getDriveIdForFolderId folderId (e :: rest')) ∧
    (∀ (folderId : String) (e : GQLEdge) (rest : List GQLEdge) (t : GQLTag),
      List.find? (fun tg => tg.name = "Drive-Id") e.node.tags = some t →
      ArFSDAOAnonymous.getDriveIdForFolderId folderId (e :: rest) = Except.ok t.value) ∧
    (∀ (folderId : String) (e : GQLEdge) (rest : List GQLEdge),
      List.find? (fun tg => tg.name = "Drive-Id") e.node.tags = none →
      ArFSDAOAnonymous.getDriveIdForFolderId folderId (e :: rest) =
      Except.error ("No Drive-Id tag found for meta data transaction of Folder-Id: "
        ++ folderId)) := by
  refine ⟨fun _ => rfl, fun _ _ _ _ => rfl, ?_, ?_⟩
  · intro folderId e rest t h
    simp [ArFSDAOAnonymous.getDriveIdForFolderId, h]
  · intro folderId e rest h
    simp [ArFSDAOAnonymous.getDriveIdForFolderId, h]

/-- Witness for `getDriveIdForFolderId_first_edge_only`: a first edge
tagged `Drive-Id: drive-1` yields `drive-1` even though a second edge
carries a different `Drive-Id`; an untagged single edge yields the
missing-tag error. -/
theorem getDriveIdForFolderId_first_edge_only_witness :
    ArFSDAOAnonymous.getDriveIdForFolderId "f1"
      [⟨⟨[⟨"Drive-Id", "drive-1"⟩]⟩⟩, ⟨⟨[⟨"Drive-Id", "drive-2"⟩]⟩⟩] =
      Except.ok "drive-1" ∧
    ArFSDAOAnonymous.getDriveIdForFolderId "f2" [⟨⟨[⟨"Entity-Type", "folder"⟩]⟩⟩] =
      Except.error "No Drive-Id tag found for meta data transaction of Folder-Id: f2" :=
  ⟨getDriveIdForFolderId_first_edge_only.2.2.1 "f1" ⟨⟨[⟨"Drive-Id", "drive-1"⟩]⟩⟩
      [⟨⟨[⟨"Drive-Id", "drive-2"⟩]⟩⟩] ⟨"Drive-Id", "drive-1"⟩ (by decide),
    getDriveIdForFolderId_first_edge_only.2.2.2 "f2" ⟨⟨[⟨"Entity-Type", "folder"⟩]⟩⟩
      [] (by decide)⟩

/-- **C5**: when the wallet balance does not cover the summed rewards of
the data, community-tip and metadata transactions, both `uploadPublicFile`
and `uploadPrivateFile` stop with the insufficient-balance error and
submit nothing (the submitted-transaction trace is empty). -/
theorem uploadFile_insufficient_balance_submits_nothing
    (walletBalance : Nat) (dataTrx metaDataTrx commTipTrx : PreparedTrx)
    (fileId : String)
    (h : walletBalance < dataTrx.reward + commTipTrx.reward + metaDataTrx.reward) :
    ArDrive.uploadPublicFile walletBalance dataTrx metaDataTrx commTipTrx fileId =
      ([], Except.error "Not enough AR for file upload..") ∧
    ArDrive.uploadPrivateFile walletBalance dataTrx metaDataTrx commTipTrx fileId =
      ([], Except.error "Not enough AR for file upload..") := by
  have hb : ArDrive.walletHasBalance walletBalance
      (dataTrx.reward + commTipTrx.reward + metaDataTrx.reward) = false := by
    simp [ArDrive.walletHasBalance, Nat.not_le ]
    exact h
  constructor <;>
    simp [ArDrive.uploadPublicFile, ArDrive.uploadPrivateFile, hb]

/-- Witness for `uploadFile_insufficient_balance_submits_nothing`: a wallet
holding 3 winston cannot cover rewards 2 + 1 + 1. -/
theorem uploadFile_insufficient_balance_submits_nothing_witness :
    ArDrive.uploadPublicFile 3 ⟨"dataTx", 2, "", 0⟩ ⟨"metaTx", 1, "", 0⟩
      ⟨"tipTx", 1, "holder", 5⟩ "file-1" =
      ([], Except.error "Not enough AR for file upload..") ∧
    ArDrive.uploadPrivateFile 3 ⟨"dataTx", 2, "", 0⟩ ⟨"metaTx", 1, "", 0⟩
      ⟨"tipTx", 1, "holder", 5⟩ "file-1" =
      ([], Except.error "Not enough AR for file upload..") :=
  uploadFile_insufficient_balance_submits_nothing 3 ⟨"dataTx", 2, "", 0⟩
    ⟨"metaTx", 1, "", 0⟩ ⟨"tipTx", 1, "holder", 5⟩ "file-1" (by decide)

/-- **C3** (code bug): a successful private file upload reaches the caller
with `created[0].key = ""` — the hard-coded empty string of the
`TODO: Implement returning the file key` site — rather than the derived
file key; the run shown is successful (all three transactions are
submitted and the result is `ok`). -/
theorem uploadPrivateFile_returns_empty_key :
    (ArDrive.uploadPrivateFile 10 ⟨"dataTx", 2, "", 0⟩ ⟨"metaTx", 1, "", 0⟩
        ⟨"tipTx", 1, "holder", 5⟩ "file-1").1 = ["dataTx", "metaTx", "tipTx"] ∧
    Except.map (fun r => List.map ArFSEntityData.key r.created)
      (ArDrive.uploadPrivateFile 10 ⟨"dataTx", 2, "", 0⟩ ⟨"metaTx", 1, "", 0⟩
        ⟨"tipTx", 1, "holder", 5⟩ "file-1").2 = Except.ok [some ""] := by
  constructor <;> rfl

/-- Invariant of the chunked-upload loop, for every start state: an
already-complete uploader performs no chunk call; every chunk call except
a final `null` one is followed by exactly one progress report; and the
`break` on a `null` chunk leaves the uploader strictly incomplete. -/
theorem chunkedUploadLoop_inv (totalChunks : Nat) (chunkOk : Nat → Bool) :
    ∀ uploaded callIdx,
      (totalChunks ≤ uploaded →
        ArFSDAO.chunkedUploadLoop totalChunks chunkOk uploaded callIdx =
          { chunkCalls := 0, progressLog := [], finalUploaded := uploaded,
            brokeOnNullChunk := false }) ∧
      ((ArFSDAO.chunkedUploadLoop totalChunks chunkOk uploaded callIdx).chunkCalls =
        (ArFSDAO.chunkedUploadLoop totalChunks chunkOk uploaded callIdx).progressLog.length +
          (if (ArFSDAO.chunkedUploadLoop totalChunks chunkOk uploaded callIdx).brokeOnNullChunk
            then 1 else 0)) ∧
      ((ArFSDAO.chunkedUploadLoop totalChunks chunkOk uploaded callIdx).brokeOnNullChunk = true →
        (ArFSDAO.chunkedUploadLoop totalChunks chunkOk uploaded callIdx).finalUploaded <
          totalChunks) := by
  suffices h : ∀ k uploaded callIdx, totalChunks - uploaded = k →
      (totalChunks ≤ uploaded →
        ArFSDAO.chunkedUploadLoop totalChunks chunkOk uploaded callIdx =
          { chunkCalls := 0, progressLog := [], finalUploaded := uploaded,
            brokeOnNullChunk := false }) ∧
      ((ArFSDAO.chunkedUploadLoop totalChunks chunkOk uploaded callIdx).chunkCalls =
        (ArFSDAO.chunkedUploadLoop totalChunks chunkOk uploaded callIdx).progressLog.length +
          (if (ArFSDAO.chunkedUploadLoop totalChunks chunkOk uploaded callIdx).brokeOnNullChunk
            then 1 else 0)) ∧
      ((ArFSDAO.chunkedUploadLoop totalChunks chunkOk uploaded callIdx).brokeOnNullChunk = true →
        (ArFSDAO.chunkedUploadLoop totalChunks chunkOk uploaded callIdx).finalUploaded <
          totalChunks) by
    exact fun uploaded callIdx => h (totalChunks - uploaded) uploaded callIdx rfl
  intro k
  induction k using Nat.strong_induction_on with
  | _ k ih =>
    intro uploaded callIdx hk
    rw [ArFSDAO.chunkedUploadLoop]
    by_cases hu : uploaded < totalChunks
    · have hk1 : totalChunks - (uploaded + 1) < k := by omega
      have ihs := ih (totalChunks - (uploaded + 1)) hk1 (uploaded + 1) (callIdx + 1) rfl
      cases hc : chunkOk callIdx
      · simp only [dif_pos hu, hc, Bool.false_eq_true, if_false]
        refine ⟨?_, ?_, ?_⟩
        · intro hle
          exact absurd hle (by omega)
        · simp
        · intro _
          exact hu
      · simp only [dif_pos hu, hc, if_true]
        refine ⟨?_, ?_, ?_⟩
        · intro hle
          exact absurd hle (by omega)
        · cases hb : (ArFSDAO.chunkedUploadLoop totalChunks chunkOk (uploaded + 1)
              (callIdx + 1)).brokeOnNullChunk <;>
            simp only [hb, Bool.false_eq_true, if_false, if_true, List.length_cons]
              at ihs ⊢ <;>
            omega
        · intro hb
          exact ihs.2.2 hb
    · simp only [dif_neg hu]
      refine ⟨?_, ?_, ?_⟩
      · intro _
        trivial
      · simp
      · intro hb
        simp at hb

/-- **C6** (amended): in `sendChunkedUploadWithProgress`, an
already-complete transaction results in no chunk step; one progress line
is logged after every successful chunk (every call but a final `null` one);
and the `null`-chunk `break` stops the loop while the upload is strictly
incomplete — but the function then returns normally (`ok`), surfacing no
error to the caller. -/
theorem sendChunkedUploadWithProgress_spec (totalChunks uploaded : Nat)
    (chunkOk : Nat → Bool) :
    (totalChunks ≤ uploaded →
      (ArFSDAO.sendChunkedUploadWithProgress totalChunks uploaded chunkOk).1.chunkCalls = 0) ∧
    ((ArFSDAO.sendChunkedUploadWithProgress totalChunks uploaded chunkOk).1.chunkCalls =
      (ArFSDAO.sendChunkedUploadWithProgress totalChunks uploaded chunkOk).1.progressLog.length +
        (if (ArFSDAO.sendChunkedUploadWithProgress totalChunks uploaded chunkOk).1.brokeOnNullChunk
          then 1 else 0)) ∧
    ((ArFSDAO.sendChunkedUploadWithProgress totalChunks uploaded chunkOk).1.brokeOnNullChunk =
        true →
      (ArFSDAO.sendChunkedUploadWithProgress totalChunks uploaded chunkOk).1.finalUploaded <
        totalChunks) ∧
    ((ArFSDAO.sendChunkedUploadWithProgress totalChunks uploaded chunkOk).2 =
      Except.ok ()) := by
  have h := chunkedUploadLoop_inv totalChunks chunkOk uploaded 0
  exact ⟨fun hle => by simp [ArFSDAO.sendChunkedUploadWithProgress, h.1 hle],
    by simpa [ArFSDAO.sendChunkedUploadWithProgress] using h.2.1,
    fun hb => h.2.2 (by simpa [ArFSDAO.sendChunkedUploadWithProgress] using hb),
    rfl⟩

/-- Witness for `sendChunkedUploadWithProgress_spec`: an already-complete
uploader (2 of 2 chunks) performs no chunk call, and an uploader stopped by
a `null` chunk at 0 of 2 chunks is left strictly incomplete. -/
theorem sendChunkedUploadWithProgress_spec_witness :
    (ArFSDAO.sendChunkedUploadWithProgress 2 2 (fun _ => true)).1.chunkCalls = 0 ∧
    (ArFSDAO.sendChunkedUploadWithProgress 2 0 (fun _ => false)).1.finalUploaded < 2 :=
  ⟨(sendChunkedUploadWithProgress_spec 2 2 (fun _ => true)).1 (by decide),
    (sendChunkedUploadWithProgress_spec 2 0 (fun _ => false)).2.2.1
      (by simp [ArFSDAO.sendChunkedUploadWithProgress, ArFSDAO.chunkedUploadLoop])⟩

/-- **C6** (counterexample to the claim as stated): with 0 of 2 chunks
uploaded and the transport answering `null` at once, the loop breaks with
the upload incomplete, yet the caller receives a normal `ok` completion —
the incomplete-but-stopped condition is not surfaced as an error. -/
theorem sendChunkedUploadWithProgress_swallows_incomplete_stop :
    (ArFSDAO.sendChunkedUploadWithProgress 2 0 (fun _ => false)).1.brokeOnNullChunk = true ∧
    (ArFSDAO.sendChunkedUploadWithProgress 2 0 (fun _ => false)).1.finalUploaded = 0 ∧
    (ArFSDAO.sendChunkedUploadWithProgress 2 0 (fun _ => false)).2 = Except.ok () := by
  refine ⟨?_, ?_, rfl⟩ <;>
    simp [ArFSDAO.sendChunkedUploadWithProgress, ArFSDAO.chunkedUploadLoop]

/-- On the two-folder parent cycle, each `setupNodesWithEntity` call
immediately recurses into the other folder with the node map unchanged, so
no recursion budget whatsoever completes: the source recursion, which has
no visited set, never terminates. -/
theorem setupNodesWithEntity_cycle_diverges :
    ∀ fuel, FolderHierarchy.setupNodesWithEntity fuel cycleEntityA cycleEntityMap [] = none ∧
      FolderHierarchy.setupNodesWithEntity fuel cycleEntityB cycleEntityMap [] = none := by
  intro fuel
  induction fuel with
  | zero => exact ⟨rfl, rfl⟩
  | succ n ih =>
    obtain ⟨ihA, ihB⟩ := ih
    simp only [cycleEntityA, cycleEntityB, cycleEntityMap] at ihA ihB
    constructor
    · rw [FolderHierarchy.setupNodesWithEntity]
      simp [cycleEntityA, cycleEntityB, cycleEntityMap, ObjMap.objGet, ObjMap.objKeys, ihB]
    · rw [FolderHierarchy.setupNodesWithEntity]
      simp [cycleEntityA, cycleEntityB, cycleEntityMap, ObjMap.objGet, ObjMap.objKeys, ihA]

/-- **C2** (code bug): `newFromEntities` does *not* terminate on a
malformed ledger whose parent references form a cycle.  For the concrete
two-entity cycle (`folder-a` with parent `folder-b`, `folder-b` with
parent `folder-a`), the embedded builder exhausts every recursion budget
(`none` for all `fuel`): the source recursion keeps alternating between
the two entities with an unchanged node map instead of promoting a
re-encountered folder to a local root. -/
theorem newFromEntities_cycle_does_not_terminate :
    ∀ fuel, FolderHierarchy.newFromEntities fuel [cycleEntityA, cycleEntityB] = none := by
  intro fuel
  have h := (setupNodesWithEntity_cycle_diverges fuel).1
  have hmap : objSet (objSet [] cycleEntityA.entityId (some cycleEntityA))
      cycleEntityB.entityId (some cycleEntityB) = cycleEntityMap := by decide
  simp [FolderHierarchy.newFromEntities, FolderHierarchy.setupAllNodes, hmap, ObjMap.empty, h]

/-- **C4**: with the parent-sync flag at its default (the spec's three-
argument `createFolder`), supplying a parent folder whose ledger-recorded
drive id differs from the stated drive id makes both `createPublicFolder`
and `createPrivateFolder` throw the consistency error — no folder
transaction value is produced on that path — while supplying no parent for
a drive that has a root folder silently records that root folder as the
new folder's parent. -/
theorem createFolder_parent_consistency_and_reparenting :
    (∀ (env : FolderDaoEnv) (folderData driveId pId newFolderId : String)
        (unixTime : Nat) (actualDriveId : String),
      env.driveIdForFolderId pId = some actualDriveId → actualDriveId ≠ driveId →
      ArFSDAO.createPublicFolder env folderData driveId (some pId) true newFolderId unixTime =
        Except.error ("Drive id: " ++ driveId ++ " does not match actual drive id: "
          ++ actualDriveId ++ " for parent folder id") ∧
      ArFSDAO.createPrivateFolder env folderData driveId (some pId) true newFolderId unixTime =
        Except.error ("Drive id: " ++ driveId ++ " does not match actual drive id: "
          ++ actualDriveId ++ " for parent folder id")) ∧
    (∀ (env : FolderDaoEnv) (folderData driveId newFolderId : String) (unixTime : Nat)
        (drive : DriveRecord) (rootId : String),
      env.driveForId driveId = some drive → drive.rootFolderId = some rootId →
      ArFSDAO.createPublicFolder env folderData driveId none true newFolderId unixTime =
        Except.ok
          { folderTrx :=
              { folderData := folderData
                unixTime := unixTime
                driveId := driveId
                folderId := newFolderId
                parentFolderId := some rootId }
            folderId := newFolderId } ∧
      ArFSDAO.createPrivateFolder env folderData driveId none true newFolderId unixTime =
        Except.ok
          { folderTrx :=
              { folderData := folderData
                unixTime := unixTime
                driveId := driveId
                folderId := newFolderId
                parentFolderId := some rootId }
            folderId := newFolderId }) := by
  constructor
  · intro env folderData driveId pId newFolderId unixTime actualDriveId hlook hne
    constructor <;>
      simp [ArFSDAO.createPublicFolder, ArFSDAO.createPrivateFolder, hlook, hne]
  · intro env folderData driveId newFolderId unixTime drive rootId hdrive hroot
    constructor <;>
      simp [ArFSDAO.createPublicFolder, ArFSDAO.createPrivateFolder, hdrive, hroot]

/-- Witness for `createFolder_parent_consistency_and_reparenting`: an
environment whose ledger maps every folder to drive `drive-2` rejects a
`createPublicFolder` stated against `drive-1`, and one whose drive carries
root folder `root-1` reparents a parentless new folder under `root-1`. -/
theorem createFolder_parent_consistency_and_reparenting_witness :
    ArFSDAO.createPublicFolder
      { driveIdForFolderId := fun _ => some "drive-2",
        driveForId := fun _ => some { rootFolderId := some "root-1" } }
      "data" "drive-1" (some "parent-1") true "new-1" 7 =
      Except.error
        "Drive id: drive-1 does not match actual drive id: drive-2 for parent folder id" ∧
    ArFSDAO.createPublicFolder
      { driveIdForFolderId := fun _ => some "drive-2",
        driveForId := fun _ => some { rootFolderId := some "root-1" } }
      "data" "drive-1" none true "new-1" 7 =
      Except.ok
        { folderTrx :=
            { folderData := "data"
              unixTime := 7
              driveId := "drive-1"
              folderId := "new-1"
              parentFolderId := some "root-1" }
          folderId := "new-1" } :=
  ⟨((createFolder_parent_consistency_and_reparenting.1
      { driveIdForFolderId := fun _ => some "drive-2",
        driveForId := fun _ => some { rootFolderId := some "root-1" } }
      "data" "drive-1" "parent-1" "new-1" 7 "drive-2" rfl (by decide)).1),
    ((createFolder_parent_consistency_and_reparenting.2
      { driveIdForFolderId := fun _ => some "drive-2",
        driveForId := fun _ => some { rootFolderId := some "root-1" } }
      "data" "drive-1" "new-1" 7 { rootFolderId := some "root-1" } "root-1" rfl rfl).1)⟩


/-- Unfolding equation for one step of the cumulative weighted-random walk. -/
theorem weightedRandom_go_cons (r acc : ℚ) (addr : String) (w : ℚ)
    (rest : List (String × ℚ)) :
    ArDriveCommunityOracle.weightedRandom.go r acc ((addr, w) :: rest) =
      if r ≤ acc + w then some addr
      else ArDriveCommunityOracle.weightedRandom.go r (acc + w) rest := rfl

/-- The cumulative walk always yields an address from the table when the
draw is no larger than the accumulated total weight. -/
theorem weightedRandom_go_some (r : ℚ) :
    ∀ (l : List (String × ℚ)) (acc : ℚ), l ≠ [] →
      r ≤ acc + (List.map Prod.snd l).sum →
      ∃ a, ArDriveCommunityOracle.weightedRandom.go r acc l = some a ∧
        a ∈ List.map Prod.fst l := by
  intro l
  induction l with
  | nil => intro acc hne; exact absurd rfl hne
  | cons p rest ih =>
    intro acc _ hle
    obtain ⟨addr, w⟩ := p
    rw [weightedRandom_go_cons]
    by_cases hc : r ≤ acc + w
    · exact ⟨addr, by rw [if_pos hc], by simp⟩
    · rw [if_neg hc]
      cases rest with
      | nil =>
        exfalso
        simp at hle
        exact hc (by linarith)
      | cons q qs =>
        have hsum : r ≤ acc + w + (List.map Prod.snd (q :: qs)).sum := by
          simp only [List.map_cons, List.sum_cons] at hle ⊢
          linarith
        obtain ⟨a, ha, hmem⟩ := ih (acc + w) (by simp) hsum
        refine ⟨a, ha, ?_⟩
        simp only [List.map_cons, List.mem_cons] at hmem ⊢
        exact Or.inr hmem

/-- The membership test `objSet` performs agrees with `objGet`. -/
theorem contains_eq_isSome_objGet {α : Type} (m : ObjMap α) (k : String) :
    (List.map Prod.fst m).contains k = (objGet m k).isSome := by
  induction m with
  | nil => rfl
  | cons p rest ih =>
    by_cases h : p.1 = k
    · simp [ObjMap.objGet, List.find?, h]
    · simp only [List.map_cons, List.contains_cons]
      rw [ih]
      simp [ObjMap.objGet, List.find?, h]
      intro hk
      exact absurd hk.symm h

/-- Writing an absent key appends it. -/
theorem objSet_of_objGet_none {α : Type} {m : ObjMap α} {k : String} (v : α)
    (h : objGet m k = none) : objSet m k v = m ++ [(k, v)] := by
  unfold ObjMap.objSet
  rw [contains_eq_isSome_objGet, h]
  rfl

/-- Writing a present key overwrites in place. -/
theorem objSet_of_objGet_some {α : Type} {m : ObjMap α} {k : String} {b : α} (v : α)
    (h : objGet m k = some b) :
    objSet m k v = List.map (fun p => if p.1 = k then (k, v) else p) m := by
  unfold ObjMap.objSet
  rw [contains_eq_isSome_objGet, h]
  rfl

/-- Overwriting a key that does not occur changes nothing. -/
theorem map_overwrite_eq_self {α : Type} {m : ObjMap α} {k : String} (v : α)
    (h : k ∉ objKeys m) :
    List.map (fun p => if p.1 = k then (k, v) else p) m = m := by
  induction m with
  | nil => rfl
  | cons p rest ih =>
    simp only [ObjMap.objKeys, List.map_cons, List.mem_cons, not_or] at h
    simp only [List.map_cons]
    have hne : ¬ p.1 = k := fun hh => h.1 hh.symm
    rw [if_neg hne, ih (by simpa [ObjMap.objKeys] using h.2)]

/-- Overwriting a present key leaves the key list unchanged. -/
theorem objKeys_objSet_some {α : Type} {m : ObjMap α} {k : String} {b : α} (v : α)
    (h : objGet m k = some b) : objKeys (objSet m k v) = objKeys m := by
  rw [objSet_of_objGet_some v h]
  unfold ObjMap.objKeys
  rw [List.map_map]
  apply List.map_congr_left
  intro p _
  by_cases hp : p.1 = k
  · simp [hp]
  · simp [hp]

/-- Writing an absent key appends it to the key list. -/
theorem objKeys_objSet_none {α : Type} {m : ObjMap α} {k : String} (v : α)
    (h : objGet m k = none) : objKeys (objSet m k v) = objKeys m ++ [k] := by
  rw [objSet_of_objGet_none v h]
  simp [ObjMap.objKeys]

/-- Writing an absent key appends its value to the value list. -/
theorem objValues_objSet_none {α : Type} {m : ObjMap α} {k : String} (v : α)
    (h : objGet m k = none) : objValues (objSet m k v) = objValues m ++ [v] := by
  rw [objSet_of_objGet_none v h]
  simp [ObjMap.objValues]

/-- With unique keys, overwriting the value at a present key changes the
value sum by the difference. -/
theorem sum_objValues_objSet_some {m : ObjMap ℚ} {k : String} {b : ℚ} (v : ℚ)
    (hnd : (objKeys m).Nodup) (h : objGet m k = some b) :
    (objValues (objSet m k v)).sum = (objValues m).sum - b + v := by
  induction m with
  | nil => simp [ObjMap.objGet] at h
  | cons p rest ih =>
    simp only [ObjMap.objKeys, List.map_cons, List.nodup_cons] at hnd
    by_cases hp : p.1 = k
    · have hb : b = p.2 := by
        simp [ObjMap.objGet, List.find?, hp] at h
        exact h.symm
      rw [objSet_of_objGet_some v h]
      simp only [List.map_cons, if_pos hp]
      have hrest : List.map (fun q => if q.1 = k then (k, v) else q) rest = rest :=
        map_overwrite_eq_self v (by simpa [ObjMap.objKeys, hp] using hnd.1)
      rw [hrest]
      simp [ObjMap.objValues, hb]
      ring
    · have hget : objGet rest k = some b := by
        simpa [ObjMap.objGet, List.find?, hp] using h
      rw [objSet_of_objGet_some v h]
      simp only [List.map_cons, if_neg hp]
      have : List.map (fun q => if q.1 = k then (k, v) else q) rest =
          objSet rest k v := (objSet_of_objGet_some v hget).symm
      rw [this]
      simp only [ObjMap.objValues, List.map_cons, List.sum_cons]
      rw [show (List.map Prod.snd (objSet rest k v)).sum =
        (objValues (objSet rest k v)).sum from rfl]
      rw [ih hnd.2 hget]
      simp [ObjMap.objValues]
      ring

/-- One vault-fold step preserves the invariant that the running total
equals the sum of the balance table and that the keys stay unique. -/
theorem foldVaultStep_inv (acc : ℚ × ObjMap ℚ) (pr : String × List ArDriveCommunityOracle.VaultEntry)
    (h1 : acc.1 = (objValues acc.2).sum) (h2 : (objKeys acc.2).Nodup) :
    (ArDriveCommunityOracle.foldVaultStep acc pr).1 =
      (objValues (ArDriveCommunityOracle.foldVaultStep acc pr).2).sum ∧
    (objKeys (ArDriveCommunityOracle.foldVaultStep acc pr).2).Nodup := by
  unfold ArDriveCommunityOracle.foldVaultStep
  by_cases he : pr.2.isEmpty
  · simp [he, h1, h2]
  · simp only [he, if_false, Bool.false_eq_true]
    cases hg : objGet acc.2 pr.1 with
    | some b =>
      constructor
      · simp only
        rw [sum_objValues_objSet_some _ h2 hg, h1]
        ring
      · simp only
        rw [objKeys_objSet_some _ hg]
        exact h2
    | none =>
      constructor
      · simp only
        rw [objValues_objSet_none _ hg, h1]
        simp
      · simp only
        rw [objKeys_objSet_none _ hg]
        refine List.Nodup.append h2 (List.nodup_singleton _) ?_
        intro x hx hx1
        simp only [List.mem_singleton] at hx1
        rw [hx1] at hx
        unfold ObjMap.objGet at hg
        rcases List.mem_map.mp hx with ⟨q, hq, hq1⟩
        have hfind : List.find? (fun p => p.1 = pr.1) acc.2 = none :=
          Option.map_eq_none.mp hg
        have := List.find?_eq_none.mp hfind q hq
        simp [hq1] at this

/-- The whole vault fold preserves the total/sum invariant and key
uniqueness. -/
theorem foldl_foldVaultStep_inv (vault : ObjMap (List ArDriveCommunityOracle.VaultEntry)) :
    ∀ (acc : ℚ × ObjMap ℚ),
      acc.1 = (objValues acc.2).sum → (objKeys acc.2).Nodup →
      (List.foldl ArDriveCommunityOracle.foldVaultStep acc vault).1 =
        (objValues (List.foldl ArDriveCommunityOracle.foldVaultStep acc vault).2).sum ∧
      (objKeys (List.foldl ArDriveCommunityOracle.foldVaultStep acc vault).2).Nodup := by
  induction vault with
  | nil => intro acc h1 h2; exact ⟨h1, h2⟩
  | cons pr rest ih =>
    intro acc h1 h2
    have hs := foldVaultStep_inv acc pr h1 h2
    exact ih _ hs.1 hs.2

/-- Dividing every entry of a table by a constant divides the value sum. -/
theorem sum_map_snd_div (c : ℚ) :
    ∀ (l : List (String × ℚ)),
      (List.map (fun pr => pr.2 / c) l).sum = (List.map Prod.snd l).sum / c := by
  intro l
  induction l with
  | nil => simp
  | cons p rest ih => simp [ih, add_div]

/-- With no balances and only empty vault lists, the fold yields a zero
total and an empty table. -/
theorem foldVaults_all_empty (vault : ObjMap (List ArDriveCommunityOracle.VaultEntry))
    (h : ∀ pr ∈ vault, pr.2 = []) :
    ArDriveCommunityOracle.foldVaults [] vault = (0, []) := by
  unfold ArDriveCommunityOracle.foldVaults
  induction vault with
  | nil => simp [ObjMap.objValues]
  | cons pr rest ih =>
    have hpr := h pr (List.mem_cons_self _ _)
    simp only [List.foldl_cons]
    rw [show ArDriveCommunityOracle.foldVaultStep ((objValues ([] : ObjMap ℚ)).sum, []) pr =
      ((objValues ([] : ObjMap ℚ)).sum, []) from by
        simp [ArDriveCommunityOracle.foldVaultStep, hpr]]
    exact ih (fun q hq => h q (List.mem_cons_of_mem _ hq))

/-- **C7**: `selectTokenHolder` signals the selection error when the
weighted table is empty (no balances, no vaulted balances), and otherwise
(positive grand total, draw in `[0, 1)`, well-formed balance keys) the
weighted table sums to exactly `1` and the draw returns `ok` with an
address from the table — never an error, never an address outside the
table (so no fixed fallback address). -/
theorem selectTokenHolder_weighted_lottery :
    (∀ (vault : ObjMap (List ArDriveCommunityOracle.VaultEntry)) (r : ℚ),
      (∀ pr ∈ vault, pr.2 = []) →
      ArDriveCommunityOracle.selectTokenHolder [] vault r =
        Except.error
          "Token holder target could not be determined for community tip distribution..") ∧
    (∀ (balances : ObjMap ℚ) (vault : ObjMap (List ArDriveCommunityOracle.VaultEntry)) (r : ℚ),
      (objKeys balances).Nodup →
      0 < (ArDriveCommunityOracle.foldVaults balances vault).1 →
      0 ≤ r → r < 1 →
      (objValues (List.map
        (fun pr => (pr.1, pr.2 / (ArDriveCommunityOracle.foldVaults balances vault).1))
        (ArDriveCommunityOracle.foldVaults balances vault).2)).sum = 1 ∧
      ∃ addr, ArDriveCommunityOracle.selectTokenHolder balances vault r = Except.ok addr ∧
        addr ∈ objKeys (ArDriveCommunityOracle.foldVaults balances vault).2) := by
  constructor
  · intro vault r hv
    unfold ArDriveCommunityOracle.selectTokenHolder
    rw [foldVaults_all_empty vault hv]
    rfl
  · intro balances vault r hnd hpos hr0 hr1
    have hinv : (ArDriveCommunityOracle.foldVaults balances vault).1 =
        (objValues (ArDriveCommunityOracle.foldVaults balances vault).2).sum ∧
        (objKeys (ArDriveCommunityOracle.foldVaults balances vault).2).Nodup :=
      foldl_foldVaultStep_inv vault ((objValues balances).sum, balances) rfl hnd
    have hsel : ∀ addr, ArDriveCommunityOracle.weightedRandom
        (List.map (fun pr => (pr.1, pr.2 / (ArDriveCommunityOracle.foldVaults balances vault).1))
          (ArDriveCommunityOracle.foldVaults balances vault).2) r = some addr →
        ArDriveCommunityOracle.selectTokenHolder balances vault r = Except.ok addr := by
      intro addr h
      simp only [ArDriveCommunityOracle.selectTokenHolder]
      rw [h]
    generalize hfv : ArDriveCommunityOracle.foldVaults balances vault = P at hpos hinv hsel ⊢
    obtain ⟨T, folded⟩ := P
    dsimp only at hpos hinv hsel ⊢
    have hfold1 : T = (objValues folded).sum := hinv.1
    have hTne : T ≠ 0 := ne_of_gt hpos
    have hsumval : (objValues (List.map (fun pr => (pr.1, pr.2 / T)) folded)).sum =
        (objValues folded).sum / T := by
      unfold ObjMap.objValues
      rw [List.map_map]
      rw [show (Prod.snd ∘ fun pr : String × ℚ => (pr.1, pr.2 / T)) =
        (fun pr : String × ℚ => pr.2 / T) from rfl]
      exact sum_map_snd_div T folded
    have hsum1 : (objValues (List.map (fun pr => (pr.1, pr.2 / T)) folded)).sum = 1 := by
      rw [hsumval, ← hfold1, div_self hTne]
    refine ⟨hsum1, ?_⟩
    have hfne : folded ≠ [] := by
      intro hnil
      rw [hnil] at hfold1
      simp only [ObjMap.objValues, List.map_nil, List.sum_nil] at hfold1
      exact hTne hfold1
    have hwne : List.map (fun pr : String × ℚ => (pr.1, pr.2 / T)) folded ≠ [] := by
      simpa using hfne
    have hle : r ≤ 0 +
        (List.map Prod.snd (List.map (fun pr : String × ℚ => (pr.1, pr.2 / T)) folded)).sum := by
      rw [show (List.map Prod.snd (List.map (fun pr : String × ℚ => (pr.1, pr.2 / T)) folded)).sum =
        (objValues (List.map (fun pr : String × ℚ => (pr.1, pr.2 / T)) folded)).sum from rfl]
      rw [hsum1]
      linarith
    obtain ⟨addr, haddr, hmem⟩ := weightedRandom_go_some r
      (List.map (fun pr : String × ℚ => (pr.1, pr.2 / T)) folded) 0 hwne hle
    refine ⟨addr, hsel addr haddr, ?_⟩
    rw [List.map_map] at hmem
    rw [show (Prod.fst ∘ fun pr : String × ℚ => (pr.1, pr.2 / T)) = Prod.fst from rfl] at hmem
    exact hmem

/-- Witness for `selectTokenHolder_weighted_lottery`: with `alice` holding
100 tokens, `bob` holding a single vaulted balance of 50, and a draw of
`1/2`, the weighted table sums to `1` and an address from the table is
selected; with no balances and an empty vault the selection error is
raised. -/
theorem selectTokenHolder_weighted_lottery_witness :
    ((objValues (List.map
        (fun pr => (pr.1, pr.2 /
          (ArDriveCommunityOracle.foldVaults [("alice", 100)]
            [("bob", [⟨50, 0, 1⟩])]).1))
        (ArDriveCommunityOracle.foldVaults [("alice", 100)]
          [("bob", [⟨50, 0, 1⟩])]).2)).sum = 1 ∧
      ∃ addr, ArDriveCommunityOracle.selectTokenHolder [("alice", 100)]
          [("bob", [⟨50, 0, 1⟩])] (1 / 2) = Except.ok addr ∧
        addr ∈ objKeys (ArDriveCommunityOracle.foldVaults [("alice", 100)]
          [("bob", [⟨50, 0, 1⟩])]).2) ∧
    ArDriveCommunityOracle.selectTokenHolder [] [("carol", [])] (1 / 2) =
      Except.error
        "Token holder target could not be determined for community tip distribution.." :=
  ⟨selectTokenHolder_weighted_lottery.2 [("alice", 100)] [("bob", [⟨50, 0, 1⟩])]
      (1 / 2) (by decide)
      (by norm_num [ArDriveCommunityOracle.foldVaults, ArDriveCommunityOracle.foldVaultStep,
        ObjMap.objGet, ObjMap.objValues, ObjMap.objSet, ObjMap.objKeys,
        show ("alice" = "bob") = False by simp, show ("bob" = "alice") = False by simp])
      (by norm_num) (by norm_num),
    selectTokenHolder_weighted_lottery.1 [("carol", [])] (1 / 2) (by decide)⟩

/-- **C1** (counterexample to the claim as stated): in the hierarchy built
from the three-level chain `folder-r → folder-m → folder-l`, the subtree
rooted at `folder-r` contains only `folder-r` and its direct child
`folder-m`; the grandchild `folder-l` — a descendant of `folder-r` in the
original tree (its parent chain runs through `folder-m` to `folder-r`) —
is missing from `subTreeOf("folder-r").allFolderIDs()`. -/
theorem subTreeOf_omits_grandchild :
    (FolderHierarchy.newFromEntities 10 [chainRoot, chainMid, chainLeaf]).map
        FolderHierarchy.allFolderIDs = some ["folder-r", "folder-m", "folder-l"] ∧
    ((FolderHierarchy.newFromEntities 10 [chainRoot, chainMid, chainLeaf]).bind
        (fun h => (FolderHierarchy.subTreeOf h "folder-r").map FolderHierarchy.allFolderIDs)) =
      some ["folder-r", "folder-m"] ∧
    ((FolderHierarchy.newFromEntities 10 [chainRoot, chainMid, chainLeaf]).bind
        (fun h => objGet h.folderIdToNodeMap "folder-l")).map FolderTreeNode.parentId =
      some (some "folder-m") ∧
    ((FolderHierarchy.newFromEntities 10 [chainRoot, chainMid, chainLeaf]).bind
        (fun h => objGet h.folderIdToNodeMap "folder-m")).map FolderTreeNode.parentId =
      some (some "folder-r") := by
  refine ⟨?_, ?_, ?_, ?_⟩ <;> decide

/-- A successful `objGet` implies the key occurs in `objKeys`. -/
theorem objGet_some_mem_keys {α : Type} {m : ObjMap α} {k : String} {v : α}
    (h : objGet m k = some v) : k ∈ objKeys m := by
  unfold ObjMap.objGet at h
  rcases Option.map_eq_some'.mp h with ⟨pr, hfind, _⟩
  have hmem := List.mem_of_find?_eq_some hfind
  have hkey : pr.1 = k := by simpa using List.find?_some hfind
  exact hkey ▸ List.mem_map_of_mem Prod.fst hmem

/-- Key membership after a single `objSet`. -/
theorem mem_objKeys_objSet {α : Type} (m : ObjMap α) (k : String) (v : α) (id : String) :
    id ∈ objKeys (objSet m k v) ↔ id ∈ objKeys m ∨ id = k := by
  cases hg : objGet m k with
  | some b =>
    rw [objKeys_objSet_some v hg]
    constructor
    · exact Or.inl
    · intro hc
      rcases hc with hc | hc
      · exact hc
      · exact hc ▸ objGet_some_mem_keys hg
  | none =>
    rw [objKeys_objSet_none v hg]
    simp

/-- Key membership after re-keying a list of items into a fresh object by
a fold of `objSet`s (the `reduce(Object.assign(...))` pattern). -/
theorem mem_objKeys_foldl_objSet {α β : Type} (key : α → String) (val : α → β) :
    ∀ (l : List α) (m : ObjMap β) (id : String),
      id ∈ objKeys (List.foldl (fun acc x => objSet acc (key x) (val x)) m l) ↔
        id ∈ objKeys m ∨ ∃ x ∈ l, key x = id := by
  intro l
  induction l with
  | nil => simp
  | cons x rest ih =>
    intro m id
    simp only [List.foldl_cons]
    rw [ih]
    rw [mem_objKeys_objSet]
    constructor
    · rintro ((hm | hx) | ⟨y, hy, hyid⟩)
      · exact Or.inl hm
      · exact Or.inr ⟨x, List.mem_cons_self _ _, hx.symm⟩
      · exact Or.inr ⟨y, List.mem_cons_of_mem _ hy, hyid⟩
    · rintro (hm | ⟨y, hy, hyid⟩)
      · exact Or.inl (Or.inl hm)
      · rcases List.mem_cons.mp hy with hyx | hyr
        · exact Or.inl (Or.inr (hyx ▸ hyid.symm))
        · exact Or.inr ⟨y, hyr, hyid⟩

/-- **C1** (amended): for every hierarchy and every folder id owning a
node, `subTreeOf` succeeds and its `allFolderIDs()` set consists of
exactly the folder itself and its *direct* children (the nodes its
`children` references resolve to) — one level only, so descendants deeper
than one level are not included (see `subTreeOf_omits_grandchild`). -/
theorem subTreeOf_is_node_and_direct_children (h : FolderHierarchy) (folderId : String)
    (n : FolderTreeNode) (hn : objGet h.folderIdToNodeMap folderId = some n) :
    ∃ st, FolderHierarchy.subTreeOf h folderId = some st ∧
      ∀ id, (id ∈ FolderHierarchy.allFolderIDs st ↔
        (id = n.folderId ∨ ∃ c ∈ n.children, ∃ cn,
          objGet h.folderIdToNodeMap c = some cn ∧ cn.folderId = id)) := by
  refine ⟨_, by rw [FolderHierarchy.subTreeOf, hn]; rfl, ?_⟩
  intro id
  unfold FolderHierarchy.allFolderIDs
  dsimp only
  refine Iff.trans (mem_objKeys_foldl_objSet (fun node : FolderTreeNode => node.folderId)
    (fun node => (objGet h.folderIdToEntityMap node.folderId).join)
    (FolderHierarchy.nodeAndChildrenOf h n) ObjMap.empty id) ?_
  unfold FolderHierarchy.nodeAndChildrenOf
  simp only [ObjMap.empty, ObjMap.objKeys, List.map_nil, List.not_mem_nil, false_or,
    List.mem_cons, List.mem_filterMap]
  constructor
  · rintro ⟨x, hx | ⟨c, hc, hcx⟩, hxid⟩
    · exact Or.inl (hx ▸ hxid.symm)
    · exact Or.inr ⟨c, hc, x, hcx, hxid⟩
  · rintro (hid | ⟨c, hc, cn, hcn, hcnid⟩)
    · exact ⟨n, Or.inl rfl, hid.symm⟩
    · exact ⟨cn, Or.inr ⟨c, hc, hcn⟩, hcnid⟩

/-- Witness for `subTreeOf_is_node_and_direct_children`: in the concrete
chain hierarchy, the subtree at `folder-m` exists and holds exactly
`folder-m` and its direct child `folder-l`. -/
theorem subTreeOf_is_node_and_direct_children_witness :
    ∃ st, FolderHierarchy.subTreeOf chainHierarchy "folder-m" = some st ∧
      ∀ id, (id ∈ FolderHierarchy.allFolderIDs st ↔
        (id = chainMidNode.folderId ∨ ∃ c ∈ chainMidNode.children, ∃ cn,
          objGet chainHierarchy.folderIdToNodeMap c = some cn ∧ cn.folderId = id)) :=
  subTreeOf_is_node_and_direct_children chainHierarchy "folder-m" chainMidNode (by decide)


/-- **C9** (counterexample to the claim as stated): decorating the child
of a folder named `x/y` produces a name path of four `/`-separated
segments against three segments in the entity-ID and transaction-ID paths
— a folder name containing `/` breaks the segment correspondence. -/
theorem claim_c9_counterexample :
    ((FolderHierarchy.newFromEntities 10 [slashRoot, slashChild]).bind
        (fun h => (ArFSPublicFileOrFolderWithPaths.ofEntity slashChild h).toOption)).map
        (fun w => (segmentCount w.path, segmentCount w.entityIdPath, segmentCount w.txIdPath)) =
      some (4, 3, 3) := by decide

theorem toList_append_str (a b : String) : (a ++ b).toList = a.toList ++ b.toList := rfl

/-- Segment counts under string append. -/
theorem segmentCount_append (a b : String) :
    segmentCount (a ++ b) = segmentCount a + segmentCount b - 1 := by
  unfold segmentCount
  rw [toList_append_str, List.count_append]
  omega

/-- A slash-free string has zero `/` characters. -/
theorem slashFree_count (s : String) (h : slashFree s) :
    s.toList.count ('/') = 0 :=
  List.count_eq_zero.mpr h

/-- Joining `n` slash-free parts with `/` yields exactly `n - 1` slash
characters. -/
theorem joinSlash_count (parts : List String) (hne : parts ≠ [])
    (hfree : ∀ p ∈ parts, slashFree p) :
    (FolderHierarchy.joinSlash parts).toList.count ('/') + 1 = parts.length := by
  induction parts with
  | nil => exact absurd rfl hne
  | cons p rest ih =>
    cases rest with
    | nil =>
      have hcount := slashFree_count p (hfree p (List.mem_cons_self _ _))
      simpa [FolderHierarchy.joinSlash] using hcount
    | cons q qs =>
      rw [show FolderHierarchy.joinSlash (p :: q :: qs) = p ++ "/" ++ FolderHierarchy.joinSlash (q :: qs) from rfl]
      rw [toList_append_str, toList_append_str, List.count_append, List.count_append]
      rw [slashFree_count p (hfree p (List.mem_cons_self _ _))]
      have hih := ih (by simp) (fun x hx => hfree x (List.mem_cons_of_mem _ hx))
      have hslash : ("/" : String).toList.count ('/') = 1 := by decide
      simp only [List.length_cons] at hih ⊢
      omega

/-- A successful `renderAll` preserves the length. -/
theorem renderAll_ok_length (render : FolderTreeNode → Except String String) :
    ∀ (l : List FolderTreeNode) (ys : List String),
      FolderHierarchy.renderAll render l = Except.ok ys → ys.length = l.length := by
  intro l
  induction l with
  | nil =>
    intro ys hy
    simp only [FolderHierarchy.renderAll] at hy
    cases hy
    rfl
  | cons n rest ih =>
    intro ys hy
    simp only [FolderHierarchy.renderAll] at hy
    cases hr : render n with
    | error e => rw [hr] at hy; cases hy
    | ok s =>
      rw [hr] at hy
      cases hrest : FolderHierarchy.renderAll render rest with
      | error e => rw [hrest] at hy; cases hy
      | ok ss =>
        rw [hrest] at hy
        cases hy
        simp [ih ss hrest]

/-- Every string a successful `renderAll` emits is the successful render
of some input node. -/
theorem renderAll_ok_mem (render : FolderTreeNode → Except String String) :
    ∀ (l : List FolderTreeNode) (ys : List String),
      FolderHierarchy.renderAll render l = Except.ok ys →
      ∀ y ∈ ys, ∃ x ∈ l, render x = Except.ok y := by
  intro l
  induction l with
  | nil =>
    intro ys hy
    simp only [FolderHierarchy.renderAll] at hy
    cases hy
    intro y hy
    cases hy
  | cons n rest ih =>
    intro ys hy
    simp only [FolderHierarchy.renderAll] at hy
    cases hr : render n with
    | error e => rw [hr] at hy; cases hy
    | ok s =>
      rw [hr] at hy
      cases hrest : FolderHierarchy.renderAll render rest with
      | error e => rw [hrest] at hy; cases hy
      | ok ss =>
        rw [hrest] at hy
        cases hy
        intro y hy
        rcases List.mem_cons.mp hy with hys | hyss
        · exact ⟨n, List.mem_cons_self _ _, hys ▸ hr⟩
        · rcases ih ss hrest y hyss with ⟨x, hx, hxy⟩
          exact ⟨x, List.mem_cons_of_mem _ hx, hxy⟩

/-- A successful `objGet` yields one of the stored values. -/
theorem objGet_some_mem_values {α : Type} {m : ObjMap α} {k : String} {v : α}
    (h : objGet m k = some v) : v ∈ objValues m := by
  unfold ObjMap.objGet at h
  rcases Option.map_eq_some'.mp h with ⟨pr, hfind, hsnd⟩
  exact hsnd ▸ List.mem_map_of_mem Prod.snd (List.mem_of_find?_eq_some hfind)

/-- A successful ancestor walk is non-empty and visits only the start
node and nodes stored in the node map. -/
theorem walkUp_mem (nodeMap : ObjMap FolderTreeNode) (rootFolderId : String) :
    ∀ (fuel : Nat) (node : FolderTreeNode) (ns : List FolderTreeNode),
      FolderHierarchy.walkUp fuel nodeMap rootFolderId node = some ns →
      ns ≠ [] ∧ ∀ x ∈ ns, x = node ∨ x ∈ objValues nodeMap := by
  intro fuel
  induction fuel with
  | zero => intro node ns h; simp [FolderHierarchy.walkUp] at h
  | succ f ih =>
    intro node ns h
    rw [FolderHierarchy.walkUp] at h
    cases hp : node.parentId with
    | none =>
      simp only [hp] at h
      cases h
      exact ⟨by simp, by intro x hx; simp at hx; exact Or.inl hx⟩
    | some pid =>
      simp only [hp] at h
      by_cases hr : node.folderId = rootFolderId
      · rw [if_pos hr] at h
        cases h
        exact ⟨by simp, by intro x hx; simp at hx; exact Or.inl hx⟩
      · rw [if_neg hr] at h
        cases hg : objGet nodeMap pid with
        | none => simp only [hg] at h; cases h
        | some parentNode =>
          simp only [hg] at h
          cases hrec : FolderHierarchy.walkUp f nodeMap rootFolderId parentNode with
          | none => simp only [hrec] at h; cases h
          | some rest =>
            simp only [hrec, Option.map_some'] at h
            cases h
            refine ⟨by simp, ?_⟩
            intro x hx
            rcases List.mem_cons.mp hx with hxn | hxr
            · exact Or.inl hxn
            · rcases (ih parentNode rest hrec).2 x hxr with hxp | hxm
              · exact Or.inr (hxp ▸ objGet_some_mem_values hg)
              · exact Or.inr hxm

/-- A path of the sentinel form `/` followed by a slash-free tail has two
segments. -/
theorem segmentCount_slash_append (tail : String) (htail : slashFree tail) :
    segmentCount ("/" ++ tail) = 2 := by
  unfold segmentCount
  rw [toList_append_str, List.count_append, slashFree_count tail htail]
  decide

/-- A rendered path `/p1/…/pn/` followed by a slash-free tail has
`n + 2` segments when every part is slash-free. -/
theorem segmentCount_rendered_path (parts : List String) (tail : String)
    (hne : parts ≠ []) (hfree : ∀ p ∈ parts, slashFree p) (htail : slashFree tail) :
    segmentCount (("/" ++ FolderHierarchy.joinSlash parts ++ "/") ++ tail) =
      parts.length + 2 := by
  unfold segmentCount
  rw [toList_append_str, List.count_append, toList_append_str, List.count_append,
    toList_append_str, List.count_append]
  have hj := joinSlash_count parts hne hfree
  have h1 : ("/" : String).toList.count ('/') = 1 := by decide
  rw [slashFree_count tail htail, h1]
  omega

/-- Decomposition of a successful `pathRender` run: either the sentinel
`'root folder'` produced `/`, or the hierarchy passed the sub-tree guard
and the result is the rendered, slash-joined ancestor walk. -/
theorem pathRender_ok_cases (h : FolderHierarchy) (fid : String)
    (render : FolderTreeNode → Except String String) (s : String)
    (hs : FolderHierarchy.pathRender h fid render = Except.ok s) :
    (fid = "root folder" ∧ s = "/") ∨
    (fid ≠ "root folder" ∧ ∃ root start ns parts,
      FolderHierarchy.rootNode? h = some root ∧
      objGet h.folderIdToNodeMap fid = some start ∧
      FolderHierarchy.walkUp (h.folderIdToNodeMap.length + 1) h.folderIdToNodeMap
        root.folderId start = some ns ∧
      FolderHierarchy.renderAll render ns.reverse = Except.ok parts ∧
      s = "/" ++ FolderHierarchy.joinSlash parts ++ "/") := by
  unfold FolderHierarchy.pathRender at hs
  cases hroot : FolderHierarchy.rootNode? h with
  | none =>
    simp only [hroot] at hs
    cases hs
  | some root =>
    simp only [hroot] at hs
    by_cases hpar : root.parentId.isSome
    · rw [if_pos hpar] at hs
      cases hs
    · rw [if_neg hpar] at hs
      by_cases hfid : fid = "root folder"
      · rw [if_pos hfid] at hs
        cases hs
        exact Or.inl ⟨hfid, rfl⟩
      · rw [if_neg hfid] at hs
        cases hn : objGet h.folderIdToNodeMap fid with
        | none =>
          simp only [hn] at hs
          cases hs
        | some start =>
          simp only [hn] at hs
          cases hwalk : FolderHierarchy.walkUp (h.folderIdToNodeMap.length + 1)
              h.folderIdToNodeMap root.folderId start with
          | none =>
            simp only [hwalk] at hs
            cases hs
          | some ns =>
            simp only [hwalk] at hs
            cases hra : FolderHierarchy.renderAll render ns.reverse with
            | error e =>
              simp only [hra] at hs
              cases hs
            | ok parts =>
              simp only [hra] at hs
              cases hs
              exact Or.inr ⟨hfid, root, start, ns, parts, rfl, rfl, hwalk, hra, rfl⟩

/-- A successful `objGet` exhibits a stored pair carrying its value. -/
theorem objGet_some_mem_pair {α : Type} {m : ObjMap α} {k : String} {v : α}
    (h : objGet m k = some v) : ∃ pr ∈ m, pr.2 = v := by
  rcases List.mem_map.mp (objGet_some_mem_values h) with ⟨pr, hpr, hsnd⟩
  exact ⟨pr, hpr, hsnd⟩

/-- **C9** (amended): whenever decorating an entity with paths succeeds
and no name, transaction id, or folder id stored in the hierarchy (nor the
entity's own name/ids) contains a `/` character, the three path strings
`path`, `entityIdPath` and `txIdPath` have exactly the same number of
`/`-separated segments: all three render the same ancestor walk, one
attribute per segment.  Without the slash-freedom proviso the claim fails
(a folder name containing a slash adds segments to `path` only). -/
theorem pathSegments_correspond (h : FolderHierarchy)
    (entity : ArFSFileOrFolderEntity) (w : ArFSPublicFileOrFolderWithPaths)
    (hent : ∀ pr ∈ h.folderIdToEntityMap, ∀ e, pr.2 = some e →
      slashFree e.name ∧ slashFree e.txId)
    (hnode : ∀ pr ∈ h.folderIdToNodeMap, slashFree pr.2.folderId)
    (hname : slashFree entity.name) (htx : slashFree entity.txId)
    (hid : slashFree entity.entityId)
    (hw : ArFSPublicFileOrFolderWithPaths.ofEntity entity h = Except.ok w) :
    segmentCount w.path = segmentCount w.entityIdPath ∧
    segmentCount w.path = segmentCount w.txIdPath := by
  unfold ArFSPublicFileOrFolderWithPaths.ofEntity at hw
  simp only [bind, Except.bind, pure, Except.pure] at hw
  cases hp : FolderHierarchy.pathToFolderId h entity.parentFolderId with
  | error e =>
    simp only [hp] at hw
    cases hw
  | ok p =>
  cases htp : FolderHierarchy.txPathToFolderId h entity.parentFolderId with
  | error e =>
    simp only [hp, htp] at hw
    cases hw
  | ok tp =>
  cases hep : FolderHierarchy.entityPathToFolderId h entity.parentFolderId with
  | error e =>
    simp only [hp, htp, hep] at hw
    cases hw
  | ok ep =>
  simp only [hp, htp, hep] at hw
  cases hw
  dsimp only
  -- decompose the three path computations
  rcases pathRender_ok_cases h entity.parentFolderId _ p hp with ⟨_, hpv⟩ | hcase
  · -- sentinel: all three are "/"
    rcases pathRender_ok_cases h entity.parentFolderId _ tp htp with ⟨_, htpv⟩ | ⟨hne, _⟩
    · rcases pathRender_ok_cases h entity.parentFolderId _ ep hep with ⟨_, hepv⟩ | ⟨hne, _⟩
      · subst hpv htpv hepv
        rw [segmentCount_slash_append entity.name hname,
          segmentCount_slash_append entity.entityId hid,
          segmentCount_slash_append entity.txId htx]
        exact ⟨rfl, rfl⟩
      · exact absurd ‹entity.parentFolderId = "root folder"› hne
    · exact absurd ‹entity.parentFolderId = "root folder"› hne
  · rcases hcase with ⟨hnf, root, start, ns, parts, hroot, hstart, hwalk, hra, hpv⟩
    rcases pathRender_ok_cases h entity.parentFolderId _ tp htp with ⟨hf, _⟩ | hcase2
    · exact absurd hf hnf
    rcases hcase2 with ⟨_, root2, start2, ns2, parts2, hroot2, hstart2, hwalk2, hra2, htpv⟩
    rcases pathRender_ok_cases h entity.parentFolderId _ ep hep with ⟨hf, _⟩ | hcase3
    · exact absurd hf hnf
    rcases hcase3 with ⟨_, root3, start3, ns3, parts3, hroot3, hstart3, hwalk3, hra3, hepv⟩
    -- determinism: the three walks are the same
    have hr2 : root2 = root := Option.some.inj (hroot2.symm.trans hroot)
    have hr3 : root3 = root := Option.some.inj (hroot3.symm.trans hroot)
    have hs2 : start2 = start := Option.some.inj (hstart2.symm.trans hstart)
    have hs3 : start3 = start := Option.some.inj (hstart3.symm.trans hstart)
    rw [hr2, hs2] at hwalk2
    rw [hr3, hs3] at hwalk3
    have hn2 : ns2 = ns := Option.some.inj (hwalk2.symm.trans hwalk)
    have hn3 : ns3 = ns := Option.some.inj (hwalk3.symm.trans hwalk)
    rw [hn2] at hra2
    rw [hn3] at hra3
    -- the walk is nonempty and its nodes are node-map values (or the start)
    have hmem := walkUp_mem h.folderIdToNodeMap root.folderId
      (h.folderIdToNodeMap.length + 1) start ns hwalk
    have hnsne : ns.reverse ≠ [] := by
      intro hc
      exact hmem.1 (List.reverse_eq_nil_iff.mp hc)
    have hnodefree : ∀ x ∈ ns.reverse, slashFree x.folderId := by
      intro x hx
      rcases hmem.2 x (List.mem_reverse.mp hx) with hxs | hxv
      · subst hxs
        rcases objGet_some_mem_pair hstart with ⟨pr, hpr, hsnd⟩
        exact hsnd ▸ hnode pr hpr
      · rcases List.mem_map.mp hxv with ⟨pr, hpr, hsnd⟩
        exact hsnd ▸ hnode pr hpr
    -- lengths: all three part lists have the walk's length
    have hlen1 := renderAll_ok_length _ ns.reverse parts hra
    have hlen2 := renderAll_ok_length _ ns.reverse parts2 hra2
    have hlen3 := renderAll_ok_length _ ns.reverse parts3 hra3
    -- slash-freedom of the rendered parts
    have hfree1 : ∀ y ∈ parts, slashFree y := by
      intro y hy
      rcases renderAll_ok_mem _ ns.reverse parts hra y hy with ⟨x, _, hxy⟩
      cases hj : (objGet h.folderIdToEntityMap x.folderId).join with
      | none =>
        simp only [hj] at hxy
        cases hxy
      | some e =>
        simp only [hj] at hxy
        cases hxy
        rcases objGet_some_mem_pair (Option.join_eq_some.mp hj) with ⟨pr, hpr, hsnd⟩
        exact (hent pr hpr e hsnd).1
    have hfree2 : ∀ y ∈ parts2, slashFree y := by
      intro y hy
      rcases renderAll_ok_mem _ ns.reverse parts2 hra2 y hy with ⟨x, hx, hxy⟩
      cases hj : (objGet h.folderIdToEntityMap x.folderId).join with
      | none =>
        simp only [hj] at hxy
        cases hxy
      | some e =>
        simp only [hj] at hxy
        cases hxy
        rcases objGet_some_mem_pair (Option.join_eq_some.mp hj) with ⟨pr, hpr, hsnd⟩
        exact (hent pr hpr e hsnd).2
    have hfree3 : ∀ y ∈ parts3, slashFree y := by
      intro y hy
      rcases renderAll_ok_mem _ ns.reverse parts3 hra3 y hy with ⟨x, hx, hxy⟩
      cases hxy
      exact hnodefree x hx
    have hne1 : parts ≠ [] := by
      intro hc
      rw [hc] at hlen1
      exact hnsne (List.length_eq_zero.mp hlen1.symm)
    have hne2 : parts2 ≠ [] := by
      intro hc
      rw [hc] at hlen2
      exact hnsne (List.length_eq_zero.mp hlen2.symm)
    have hne3 : parts3 ≠ [] := by
      intro hc
      rw [hc] at hlen3
      exact hnsne (List.length_eq_zero.mp hlen3.symm)
    subst hpv htpv hepv
    rw [segmentCount_rendered_path parts entity.name hne1 hfree1 hname,
      segmentCount_rendered_path parts3 entity.entityId hne3 hfree3 hid,
      segmentCount_rendered_path parts2 entity.txId hne2 hfree2 htx]
    omega

/-- Witness for `pathSegments_correspond`: in the slash-free chain
hierarchy, the decorated leaf's three paths all have four segments. -/
theorem pathSegments_correspond_witness :
    segmentCount (ArFSPublicFileOrFolderWithPaths.path
        (ArFSPublicFileOrFolderWithPaths.mk chainLeaf "/r/m/l" "/tx-r/tx-m/tx-l"
          "/folder-r/folder-m/folder-l")) =
      segmentCount (ArFSPublicFileOrFolderWithPaths.entityIdPath
        (ArFSPublicFileOrFolderWithPaths.mk chainLeaf "/r/m/l" "/tx-r/tx-m/tx-l"
          "/folder-r/folder-m/folder-l")) ∧
    segmentCount (ArFSPublicFileOrFolderWithPaths.path
        (ArFSPublicFileOrFolderWithPaths.mk chainLeaf "/r/m/l" "/tx-r/tx-m/tx-l"
          "/folder-r/folder-m/folder-l")) =
      segmentCount (ArFSPublicFileOrFolderWithPaths.txIdPath
        (ArFSPublicFileOrFolderWithPaths.mk chainLeaf "/r/m/l" "/tx-r/tx-m/tx-l"
          "/folder-r/folder-m/folder-l")) :=
  pathSegments_correspond chainHierarchy chainLeaf
    (ArFSPublicFileOrFolderWithPaths.mk chainLeaf "/r/m/l" "/tx-r/tx-m/tx-l"
      "/folder-r/folder-m/folder-l")
    (by
      intro pr hpr e he
      simp only [chainHierarchy, List.mem_cons, List.not_mem_nil, or_false] at hpr
      rcases hpr with h1 | h1 | h1 <;> cases h1 <;> cases he <;> decide)
    (by decide) (by decide) (by decide) (by decide) (by rfl)
